import Mathlib

/-!
Shallow embedding of the data pipeline of `redditStreamlit_5.py`:
CSV ingestion and normalization (`load_all_data`), the filter engine
(`df_filtered`), and the KPI aggregations (growth table, top products,
top location, city grids).

Modelling conventions:
* Python strings are Lean `String`s; the Python string operations used by
  the script (`split`, `replace`, `endswith`, code-point comparison) are
  re-implemented over `List Char`, matching Python semantics exactly,
  because they must be executable in the kernel.
* Dates (`pd.to_datetime` values) are embedded as `Int` keys
  `y*10000 + m*100 + d`; this is order-isomorphic to calendar order for
  the ISO `YYYY-MM-DD` strings of the Google Trends export format.
* Mention counts are `Int`: `pd.read_csv` parses an integer literal cell
  (including a negative one) to int64 without raising.  Non-integer cells,
  which `read_csv` passes through as strings without raising, are outside
  the model.
* Python floats are embedded as `ℚ`, except that the IEEE non-finite
  values produced by pandas division by zero are kept explicit in
  `PctCell` (`nan`, `posInf`, `negInf`).
-/

/-- Strict code-point lexicographic comparison of character lists: the
comparison Python uses for `str` values (and hence the order behind
`sorted`, pandas sorted group keys and sorted index unions). -/
def charListLt : List Char → List Char → Bool
  | [], [] => false
  | [], _ :: _ => true
  | _ :: _, [] => false
  | a :: as, b :: bs =>
    if a.toNat < b.toNat then true
    else if b.toNat < a.toNat then false
    else charListLt as bs

/-- Python `a < b` on strings. -/
def pyStrLt (a b : String) : Bool := charListLt a.data b.data

/-- Python `a <= b` on strings (total order, so `a <= b` iff `not (b < a)`). -/
def pyStrLe (a b : String) : Bool := ! charListLt b.data a.data

/-- The propositional form of `pyStrLe`, used as the sorting relation. -/
def pyLe (a b : String) : Prop := pyStrLe a b = true

instance : DecidableRel pyLe := fun a b => by unfold pyLe; infer_instance

/-- Python `s.split(sep)` for a one-character separator: splits at every
occurrence, keeping empty pieces, and `"".split(sep) = [""]`. -/
def pySplit (sep : Char) : List Char → List (List Char)
  | [] => [[]]
  | c :: rest =>
    match pySplit sep rest with
    | [] => if c = sep then [[], []] else [[c]]
    | w :: ws => if c = sep then [] :: w :: ws else (c :: w) :: ws

/-- Python `s.replace(pat, "")`: removes every non-overlapping occurrence
of `pat`, scanning left to right.  The fuel argument (instantiated with
the length of the scanned list) only serves termination: every step
consumes at least one character when `pat` is non-empty. -/
def removeAll (pat : List Char) : Nat → List Char → List Char
  | _, [] => []
  | 0, s => s
  | fuel + 1, c :: rest =>
    if pat.isPrefixOf (c :: rest) then
      removeAll pat fuel (List.drop pat.length (c :: rest))
    else
      c :: removeAll pat fuel rest

/-- Python `s.endswith(suffix)`. -/
def pyEndsWith (s suffix : String) : Bool := suffix.data.isSuffixOf s.data

/-- Digit-string to number accumulator used by `parseNatStr`. -/
def parseNatAux : Nat → List Char → Option Nat
  | acc, [] => some acc
  | acc, c :: rest =>
    if c.isDigit then parseNatAux (acc * 10 + (c.toNat - '0'.toNat)) rest
    else none

/-- Parse a non-empty all-digit character list into a number. -/
def parseNatStr : List Char → Option Nat
  | [] => none
  | c :: rest => parseNatAux 0 (c :: rest)

/-- Embedding of `pd.to_datetime` on one date cell, restricted to the ISO
`YYYY-MM-DD` strings of the Google Trends export format; any string
outside that format raises in pandas, modelled as `none`. -/
def parseDate (s : String) : Option Int :=
  match (pySplit '-' s.data).map parseNatStr with
  | [some y, some m, some d] =>
    if 1 ≤ m ∧ m ≤ 12 ∧ 1 ≤ d ∧ d ≤ 31 then
      some ((y : Int) * 10000 + (m : Int) * 100 + (d : Int))
    else none
  | _ => none

/-- One row of the unified dataset, as assembled by `load_all_data`. -/
structure Record where
  date : Int
  mentions : Int
  product : String
  category : String
  location : String
deriving DecidableEq

/-- The static `product_to_category` dict of the script. -/
def product_to_category : List (String × String) :=
  [("CheckSuit", "Suits"), ("BlackTuxedo", "Suits"),
   ("WoolOvercoat", "Coats"), ("TrenchCoat", "Coats"), ("PufferJacket", "Coats"),
   ("LinenBlazer", "Blazers"), ("VelvetBlazer", "Blazers"),
   ("OversizedGraphicTee", "T-shirts"), ("CrewNeckTee", "T-shirts"),
   ("AviatorSunglasses", "Accessories"), ("WoolScarf", "Accessories"),
   ("CrewNeckSweatshirt", "Sweatshirts"), ("OversizedSweatshirt", "Sweatshirts"),
   ("Cardigans", "Knitwear"), ("Pullovers", "Knitwear"),
   ("DenimShirt", "Shirts"),
   ("CargoJoggers", "Pants"), ("Palazzo", "Pants"), ("BlackJeans", "Pants"),
   ("FloralMaxiDress", "Dress"), ("SatinDress", "Dress"),
   ("GymLeggings", "Sportswear"), ("SportsBra", "Sportswear"),
   ("BabyBodysuit", "Kidswear"),
   ("WoolSweater", "Sweaters"), ("FuzzySweater", "Sweaters"),
   ("CropTop", "Tops"), ("OffShoulderTop", "Tops"),
   ("CottonPolo", "Polos"),
   ("Jumpsuit", "Jumpsuits")]

/-- The dict lookup `product_to_category.get(product, "Unknown")`. -/
def categoryOf (product : String) : String :=
  (product_to_category.lookup product).getD "Unknown"

/-- The static `city_aliases` dict of the script. -/
def city_aliases : List (String × List String) :=
  [("UK", ["London", "Birmingham"]), ("Spain", ["Madrid", "Barcelona"])]

/-- One CSV file as presented to the loader: its filename and the data
rows left after `pd.read_csv(path, skiprows=2)` has consumed the fixed
preamble and header line.  Each data row is the raw date cell together
with the mentions cell as parsed by `read_csv` (an `Int`: integer
literals, negative ones included, parse without raising). -/
structure RawFile where
  fname : String
  rows : List (String × Int)
deriving DecidableEq

/-- Parse the date cell of every row (`pd.to_datetime` over the Date
column); a single malformed cell raises, i.e. yields `none`. -/
def parseRows : List (String × Int) → Option (List (Int × Int))
  | [] => some []
  | (ds, m) :: rest =>
    match parseDate ds, parseRows rest with
    | some d, some rs => some ((d, m) :: rs)
    | _, _ => none

/-- The filename parse `file.replace(".csv", "").split("_")` followed by taking
`name_parts[0]` and `name_parts[1]`; a name without an underscore raises
`IndexError`, modelled as `none`. -/
def parseName (fname : String) : Option (String × String) :=
  match pySplit '_' (removeAll ".csv".data fname.data.length fname.data) with
  | p :: t :: _ => some (⟨p⟩, ⟨t⟩)
  | _ => none

/-- The records contributed by one parsed file for one resolved location:
every row of the file, tagged with the product, its category and that
location. -/
def recordsOf (rows : List (Int × Int)) (product loc : String) : List Record :=
  rows.map (fun dm => ⟨dm.1, dm.2, product, categoryOf product, loc⟩)

/-- The per-file body of `load_all_data`: parse content and filename
(any failure is caught by the `except` and yields `none`, the file being
skipped with a warning), then emit one record set per alias city when the
location tag is aliased, else a single record set with the tag verbatim. -/
def normalizeFile (f : RawFile) : Option (List (List Record)) :=
  match parseRows f.rows with
  | none => none
  | some rows =>
    match parseName f.fname with
    | none => none
    | some (product, tag) =>
      match city_aliases.lookup tag with
      | some cities => some (cities.map (fun city => recordsOf rows product city))
      | none => some [recordsOf rows product tag]

/-- The records a single file contributes to the unified dataset: none
when it is skipped, the concatenation of its record sets otherwise. -/
def fileRecords (f : RawFile) : List Record :=
  match normalizeFile f with
  | some sets => sets.flatten
  | none => []

/-- The loader `load_all_data`, with the directory walk flattened into one file list
(the folder structure only routes `os.listdir`; row order within a file
is preserved, and non-`.csv` entries are skipped before parsing). -/
def load_all_data (files : List RawFile) : List Record :=
  (files.filter (fun f => pyEndsWith f.fname ".csv")).flatMap fileRecords

/-- The filter engine `df_filtered`: conjunction of the two `isin`
memberships, the location membership and the inclusive
`between(lo, hi)` date range. -/
def df_filtered (df : List Record) (products categories locations : List String)
    (lo hi : Int) : List Record :=
  df.filter (fun r =>
    products.contains r.product &&
    categories.contains r.category &&
    locations.contains r.location &&
    (decide (lo ≤ r.date) && decide (r.date ≤ hi)))

/-- Total of the Mentions column of a record list. -/
def sumMentions (rows : List Record) : Int := (rows.map Record.mentions).sum

/-- The minimum `df_filtered["Date"].min()`; the script only reaches this point on a
non-empty filtered view (`st.stop()` otherwise), so the default for the
empty list is never consulted there. -/
def first_date (df : List Record) : Int := ((df.map Record.date).min?).getD 0

/-- The maximum `df_filtered["Date"].max()`. -/
def last_date (df : List Record) : Int := ((df.map Record.date).max?).getD 0

/-- The series `agg_start` with the subsequent `fillna(0)`: the summed mentions of a
product on the first date of the view (the sum over an empty selection,
i.e. a product absent on that date, is 0, exactly what `fillna` fills). -/
def startOf (df : List Record) (p : String) : Int :=
  sumMentions (df.filter (fun r => decide (r.date = first_date df) && decide (r.product = p)))

/-- The series `agg_end` with the subsequent `fillna(0)`. -/
def endOf (df : List Record) (p : String) : Int :=
  sumMentions (df.filter (fun r => decide (r.date = last_date df) && decide (r.product = p)))

/-- The `capped_growth` row function, verbatim: the `start < 20` test
fires first, then the (consequently unreachable) `start == 0` test, then
the percentage change capped to within plus/minus 1000. -/
def capped_growth (start e : Int) : ℚ :=
  if start < 20 then 0
  else if start = 0 then (if 0 < e then (100 : ℚ) else 0)
  else
    let change : ℚ := (((e : ℚ) - (start : ℚ)) / (start : ℚ)) * 100
    if change > 1000 then 1000
    else if change < -1000 then -1000
    else change

/-- Sort a list of strings in Python's string order (the order of pandas
group keys and index unions). -/
def sortStrs (l : List String) : List String := l.insertionSort pyLe

/-- The index of `growth_df`: the union of the (sorted, unique) group
keys of `agg_start` and `agg_end`, i.e. the products present on the first
or last date of the view, sorted; the union of two sorted unique pandas
indexes is again sorted and unique. -/
def growthIndex (df : List Record) : List String :=
  sortStrs (((df.filter (fun r =>
    decide (r.date = first_date df) || decide (r.date = last_date df))).map
      Record.product).dedup)

/-- The `Growth %` column: `capped_growth` applied to a product's row of
`growth_df`. -/
def growthOf (df : List Record) (p : String) : ℚ :=
  capped_growth (startOf df p) (endOf df p)

/-- The table `growth_nonzero`: the rows of `growth_df` whose `Growth %` is not 0,
in index (i.e. sorted) order. -/
def growth_nonzero (df : List Record) : List String :=
  (growthIndex df).filter (fun p => decide (growthOf df p ≠ 0))

/-- Pandas `idxmax`: the first index position attaining the maximum of
the series (later entries replace the current best only when strictly
greater). -/
def idxmaxBy {α β : Type} [LinearOrder β] (f : α → β) : List α → Option α
  | [] => none
  | x :: xs =>
    match idxmaxBy f xs with
    | none => some x
    | some y => if f x < f y then some y else some x

/-- Pandas `idxmin`: the first index position attaining the minimum. -/
def idxminBy {α β : Type} [LinearOrder β] (f : α → β) : List α → Option α
  | [] => none
  | x :: xs =>
    match idxminBy f xs with
    | none => some x
    | some y => if f y < f x then some y else some x

/-- The KPI `top_growing_product`: `growth_nonzero["Growth %"].idxmax()` when
`growth_nonzero` is non-empty, `None` otherwise. -/
def top_growing (df : List Record) : Option String :=
  idxmaxBy (growthOf df) (growth_nonzero df)

/-- The KPI `top_declining_product`: `idxmin` over the same rows, `None` when
there are none. -/
def top_declining (df : List Record) : Option String :=
  idxminBy (growthOf df) (growth_nonzero df)

/-- The sorted unique group keys of `groupby("Location")`. -/
def locationsOf (df : List Record) : List String :=
  sortStrs ((df.map Record.location).dedup)

/-- A location's summed mentions over the view. -/
def locTotal (df : List Record) (c : String) : Int :=
  sumMentions (df.filter (fun r => decide (r.location = c)))

/-- The KPI `top_location`: `groupby("Location")["Mentions"].sum().idxmax()`
(only evaluated on a non-empty view in the script; `none` on the empty
view here). -/
def top_location (df : List Record) : Option String :=
  idxmaxBy (locTotal df) (locationsOf df)

/-- The sorted unique group keys of the Category axis of `cat_city`. -/
def categoriesOf (df : List Record) : List String :=
  sortStrs ((df.map Record.category).dedup)

/-- One cell of `cat_city`: summed mentions of a (Location, Category)
pair; `unstack(fill_value=0)` makes an absent pair 0, which the empty
sum already is. -/
def cityCatTotal (df : List Record) (c k : String) : Int :=
  sumMentions (df.filter (fun r => decide (r.location = c) && decide (r.category = k)))

/-- The row total `cat_city.sum(axis=1)`: a city's total across the category
columns of the grid. -/
def cityRowSum (df : List Record) (c : String) : Int :=
  ((categoriesOf df).map (fun k => cityCatTotal df c k)).sum

/-- One float cell of the share grid: a rational value, or one of the
IEEE non-finite values that pandas division by a zero row total
produces. -/
inductive PctCell where
  | val (q : ℚ)
  | nan
  | posInf
  | negInf
deriving DecidableEq

/-- Float division of a grid cell by its row total followed by `* 100`,
with IEEE zero-divisor behaviour: `0/0` is NaN and `x/0` for `x ≠ 0` is
a signed infinity (pandas raises nothing here); rounding of finite
results is abstracted away by computing in `ℚ`. -/
def divCell (num t : Int) : PctCell :=
  if t = 0 then
    (if num = 0 then PctCell.nan
     else if 0 < num then PctCell.posInf
     else PctCell.negInf)
  else PctCell.val (((num : ℚ) / (t : ℚ)) * 100)

/-- One cell of `cat_city_pct = cat_city.div(cat_city.sum(axis=1), axis=0) * 100`. -/
def cat_city_pct (df : List Record) (c k : String) : PctCell :=
  divCell (cityCatTotal df c k) (cityRowSum df c)

/-- Small concrete filtered view used to instantiate the theorems: two
products that tie at 100 percent growth and two locations that tie at 60
total mentions. -/
def dfTie : List Record :=
  [⟨20240107, 20, "B", "Coats", "London"⟩, ⟨20240114, 40, "B", "Coats", "London"⟩,
   ⟨20240107, 20, "C", "Coats", "Paris"⟩, ⟨20240114, 40, "C", "Coats", "Paris"⟩]

/-- Small concrete filtered view with one low-volume product (Start 10)
and one product with positive growth from a Start of 30. -/
def dfLow : List Record :=
  [⟨20240107, 10, "CheckSuit", "Suits", "London"⟩,
   ⟨20240114, 1000, "CheckSuit", "Suits", "London"⟩,
   ⟨20240107, 30, "TrenchCoat", "Coats", "London"⟩,
   ⟨20240114, 10, "TrenchCoat", "Coats", "London"⟩]

/-! ### Properties of the Python string order -/

theorem charListLt_irrefl (as : List Char) : charListLt as as = false := by
  induction as with
  | nil => rfl
  | cons a as ih => simp [charListLt, ih]

theorem charListLt_asymm :
    ∀ as bs, charListLt as bs = true → charListLt bs as = false := by
  intro as
  induction as with
  | nil =>
    intro bs h
    cases bs with
    | nil => simp [charListLt] at h
    | cons b bs => rfl
  | cons a as ih =>
    intro bs h
    cases bs with
    | nil => simp [charListLt] at h
    | cons b bs =>
      simp only [charListLt] at h ⊢
      by_cases hab : a.toNat < b.toNat
      · have hba : ¬ b.toNat < a.toNat := by omega
        simp [hab, hba]
      · by_cases hba : b.toNat < a.toNat
        · simp [hab, hba] at h
        · simp only [hab, hba, if_false] at h ⊢
          exact ih bs h

theorem charListLt_false_trans :
    ∀ as bs cs, charListLt bs as = false → charListLt cs bs = false →
      charListLt cs as = false := by
  intro as
  induction as with
  | nil =>
    intro bs cs h1 h2
    cases cs <;> rfl
  | cons a as ih =>
    intro bs cs h1 h2
    cases bs with
    | nil => simp [charListLt] at h1
    | cons b bs =>
      cases cs with
      | nil => simp [charListLt] at h2
      | cons c cs =>
        simp only [charListLt] at h1 h2 ⊢
        by_cases hba : b.toNat < a.toNat
        · simp [hba] at h1
        · by_cases hcb : c.toNat < b.toNat
          · simp [hcb] at h2
          · by_cases hca : c.toNat < a.toNat
            · omega
            · by_cases hac : a.toNat < c.toNat
              · simp [hca, hac]
              · have hab : a.toNat = b.toNat := by omega
                have hbc : b.toNat = c.toNat := by omega
                simp only [hba, if_false, hab, lt_irrefl, if_false] at h1
                simp only [hcb, if_false, hbc, lt_irrefl, if_false] at h2
                simp only [hca, if_false, hac, if_false]
                exact ih bs cs h1 h2

theorem pyLe_refl (a : String) : pyLe a a := by
  simp [pyLe, pyStrLe, charListLt_irrefl]

instance : IsTotal String pyLe := by
  constructor
  intro a b
  by_cases h : charListLt b.data a.data = true
  · right
    simp [pyLe, pyStrLe, charListLt_asymm _ _ h]
  · left
    simp only [pyLe, pyStrLe, Bool.not_eq_true']
    simpa using h

instance : IsTrans String pyLe := by
  constructor
  intro a b c hab hbc
  simp only [pyLe, pyStrLe, Bool.not_eq_true'] at hab hbc ⊢
  exact charListLt_false_trans a.data b.data c.data hab hbc

theorem sortStrs_pairwise (l : List String) : (sortStrs l).Pairwise pyLe :=
  List.sorted_insertionSort pyLe l

/-! ### Properties of `idxmaxBy` / `idxminBy` -/

theorem idxmaxBy_eq_none {α β : Type} [LinearOrder β] (f : α → β) :
    ∀ l : List α, idxmaxBy f l = none ↔ l = [] := by
  intro l
  cases l with
  | nil => simp [idxmaxBy]
  | cons x xs =>
    simp only [idxmaxBy]
    cases h : idxmaxBy f xs with
    | none => simp
    | some y =>
      by_cases hlt : f x < f y <;> simp [hlt]

theorem idxmaxBy_spec {α β : Type} [LinearOrder β] (f : α → β) :
    ∀ (l : List α) (p : α), idxmaxBy f l = some p →
      p ∈ l ∧ ∀ q ∈ l, f q ≤ f p := by
  intro l
  induction l with
  | nil => intro p h; simp [idxmaxBy] at h
  | cons x xs ih =>
    intro p h
    simp only [idxmaxBy] at h
    cases hxs : idxmaxBy f xs with
    | none =>
      have hnil : xs = [] := (idxmaxBy_eq_none f xs).mp hxs
      rw [hxs] at h
      cases h
      simp [hnil]
    | some y =>
      rw [hxs] at h
      replace h : (if f x < f y then some y else some x) = some p := h
      obtain ⟨hy, hall⟩ := ih y hxs
      by_cases hlt : f x < f y
      · rw [if_pos hlt] at h
        cases h
        refine ⟨List.mem_cons_of_mem _ hy, ?_⟩
        intro q hq
        rcases List.mem_cons.mp hq with rfl | hq'
        · exact le_of_lt hlt
        · exact hall q hq'
      · rw [if_neg hlt] at h
        cases h
        refine ⟨List.mem_cons_self _ _, ?_⟩
        intro q hq
        rcases List.mem_cons.mp hq with rfl | hq'
        · exact le_refl _
        · exact le_trans (hall q hq') (not_lt.mp hlt)

theorem idxmaxBy_first {α β : Type} [LinearOrder β] (f : α → β) :
    ∀ (l : List α) (p : α), idxmaxBy f l = some p →
      ∃ l1 l2, l = l1 ++ p :: l2 ∧ ∀ q ∈ l1, f q < f p := by
  intro l
  induction l with
  | nil => intro p h; simp [idxmaxBy] at h
  | cons x xs ih =>
    intro p h
    simp only [idxmaxBy] at h
    cases hxs : idxmaxBy f xs with
    | none =>
      rw [hxs] at h
      cases h
      exact ⟨[], xs, rfl, by simp⟩
    | some y =>
      rw [hxs] at h
      replace h : (if f x < f y then some y else some x) = some p := h
      by_cases hlt : f x < f y
      · rw [if_pos hlt] at h
        cases h
        obtain ⟨l1, l2, hl, hless⟩ := ih p hxs
        refine ⟨x :: l1, l2, by simp [hl], ?_⟩
        intro q hq
        rcases List.mem_cons.mp hq with rfl | hq'
        · exact hlt
        · exact hless q hq'
      · rw [if_neg hlt] at h
        cases h
        exact ⟨[], xs, rfl, by simp⟩

theorem idxminBy_eq_none {α β : Type} [LinearOrder β] (f : α → β) :
    ∀ l : List α, idxminBy f l = none ↔ l = [] := by
  intro l
  cases l with
  | nil => simp [idxminBy]
  | cons x xs =>
    simp only [idxminBy]
    cases h : idxminBy f xs with
    | none => simp
    | some y =>
      by_cases hlt : f y < f x <;> simp [hlt]

theorem idxminBy_spec {α β : Type} [LinearOrder β] (f : α → β) :
    ∀ (l : List α) (p : α), idxminBy f l = some p →
      p ∈ l ∧ ∀ q ∈ l, f p ≤ f q := by
  intro l
  induction l with
  | nil => intro p h; simp [idxminBy] at h
  | cons x xs ih =>
    intro p h
    simp only [idxminBy] at h
    cases hxs : idxminBy f xs with
    | none =>
      have hnil : xs = [] := (idxminBy_eq_none f xs).mp hxs
      rw [hxs] at h
      cases h
      simp [hnil]
    | some y =>
      rw [hxs] at h
      replace h : (if f y < f x then some y else some x) = some p := h
      obtain ⟨hy, hall⟩ := ih y hxs
      by_cases hlt : f y < f x
      · rw [if_pos hlt] at h
        cases h
        refine ⟨List.mem_cons_of_mem _ hy, ?_⟩
        intro q hq
        rcases List.mem_cons.mp hq with rfl | hq'
        · exact le_of_lt hlt
        · exact hall q hq'
      · rw [if_neg hlt] at h
        cases h
        refine ⟨List.mem_cons_self _ _, ?_⟩
        intro q hq
        rcases List.mem_cons.mp hq with rfl | hq'
        · exact le_refl _
        · exact le_trans (not_lt.mp hlt) (hall q hq')

theorem idxminBy_first {α β : Type} [LinearOrder β] (f : α → β) :
    ∀ (l : List α) (p : α), idxminBy f l = some p →
      ∃ l1 l2, l = l1 ++ p :: l2 ∧ ∀ q ∈ l1, f p < f q := by
  intro l
  induction l with
  | nil => intro p h; simp [idxminBy] at h
  | cons x xs ih =>
    intro p h
    simp only [idxminBy] at h
    cases hxs : idxminBy f xs with
    | none =>
      rw [hxs] at h
      cases h
      exact ⟨[], xs, rfl, by simp⟩
    | some y =>
      rw [hxs] at h
      replace h : (if f y < f x then some y else some x) = some p := h
      by_cases hlt : f y < f x
      · rw [if_pos hlt] at h
        cases h
        obtain ⟨l1, l2, hl, hless⟩ := ih p hxs
        refine ⟨x :: l1, l2, by simp [hl], ?_⟩
        intro q hq
        rcases List.mem_cons.mp hq with rfl | hq'
        · exact hlt
        · exact hless q hq'
      · rw [if_neg hlt] at h
        cases h
        exact ⟨[], xs, rfl, by simp⟩

/-- In a list sorted by the Python string order, the first maximum of a
series is lexicographically at most every tied entry. -/
theorem first_max_le_ties {β : Type} [LinearOrder β] {l : List String}
    (hs : l.Pairwise pyLe) {f : String → β} {p : String}
    (h : idxmaxBy f l = some p) {q : String} (hq : q ∈ l)
    (heq : f q = f p) : pyLe p q := by
  obtain ⟨l1, l2, rfl, hless⟩ := idxmaxBy_first f _ p h
  rcases List.mem_append.mp hq with hq1 | hq2
  · exact absurd heq (ne_of_lt (hless q hq1))
  · rcases List.mem_cons.mp hq2 with rfl | hq3
    · exact pyLe_refl q
    · have := (List.pairwise_append.mp hs).2.1
      exact (List.pairwise_cons.mp this).1 q hq3

/-- Same statement for the first minimum. -/
theorem first_min_le_ties {β : Type} [LinearOrder β] {l : List String}
    (hs : l.Pairwise pyLe) {f : String → β} {p : String}
    (h : idxminBy f l = some p) {q : String} (hq : q ∈ l)
    (heq : f q = f p) : pyLe p q := by
  obtain ⟨l1, l2, rfl, hless⟩ := idxminBy_first f _ p h
  rcases List.mem_append.mp hq with hq1 | hq2
  · exact absurd heq.symm (ne_of_lt (hless q hq1))
  · rcases List.mem_cons.mp hq2 with rfl | hq3
    · exact pyLe_refl q
    · have := (List.pairwise_append.mp hs).2.1
      exact (List.pairwise_cons.mp this).1 q hq3

/-! ### Arithmetic helper lemmas -/

theorem sum_map_div_mul (l : List ℚ) (t : ℚ) :
    (l.map (fun x => x / t * 100)).sum = l.sum / t * 100 := by
  induction l with
  | nil => simp
  | cons x xs ih => simp [ih, add_div, add_mul]

theorem sum_map_intCast (l : List Int) :
    (l.map (Int.cast : Int → ℚ)).sum = ((l.sum : Int) : ℚ) := by
  induction l with
  | nil => simp
  | cons x xs ih =>
    rw [List.map_cons, List.sum_cons, List.sum_cons, ih, Int.cast_add]

/-- Every record emitted for an accepted file carries a mentions value
taken verbatim from one of the file's count cells. -/
theorem parseRows_mentions :
    ∀ (rs : List (String × Int)) (rows : List (Int × Int)),
      parseRows rs = some rows → ∀ dm ∈ rows, ∃ sm ∈ rs, dm.2 = sm.2 := by
  intro rs
  induction rs with
  | nil =>
    intro rows h dm hdm
    simp only [parseRows] at h
    cases h
    simp at hdm
  | cons r rest ih =>
    intro rows h dm hdm
    simp only [parseRows] at h
    cases hd : parseDate r.1 with
    | none => rw [hd] at h; cases h
    | some d =>
      cases hr : parseRows rest with
      | none => rw [hd, hr] at h; cases h
      | some rs' =>
        rw [hd, hr] at h
        cases h
        rcases List.mem_cons.mp hdm with rfl | hdm'
        · exact ⟨r, List.mem_cons_self _ _, rfl⟩
        · obtain ⟨sm, hsm, hval⟩ := ih rs' hr dm hdm'
          exact ⟨sm, List.mem_cons_of_mem _ hsm, hval⟩

theorem normalizeFile_mentions (f : RawFile) (sets : List (List Record))
    (h : normalizeFile f = some sets) :
    ∀ r ∈ sets.flatten, ∃ sm ∈ f.rows, r.mentions = sm.2 := by
  intro r hr
  unfold normalizeFile at h
  split at h
  · cases h
  next rows hrows =>
    split at h
    · cases h
    next product tag hname =>
      have hmem : ∃ loc, r ∈ recordsOf rows product loc := by
        split at h
        next cities halias =>
          cases h
          rw [List.mem_flatten] at hr
          obtain ⟨s, hs, hrs⟩ := hr
          rw [List.mem_map] at hs
          obtain ⟨city, _, rfl⟩ := hs
          exact ⟨city, hrs⟩
        next halias =>
          cases h
          exact ⟨tag, by simpa using hr⟩
      obtain ⟨loc, hloc⟩ := hmem
      rw [recordsOf, List.mem_map] at hloc
      obtain ⟨dm, hdm, rfl⟩ := hloc
      obtain ⟨sm, hsm, hval⟩ := parseRows_mentions f.rows rows hrows dm hdm
      exact ⟨sm, hsm, hval⟩

/-! ### The claims -/

/-- C1: for every product whose Start (summed mentions on the earliest
date of the filtered view) is strictly below 20, the computed Growth%
is 0 and the product is excluded from top-growing/top-declining
consideration; in particular Start 10, End 1000 yields Growth% 0. -/
theorem growth_suppressed_below_twenty (df : List Record) (p : String)
    (h : startOf df p < 20) :
    growthOf df p = 0 ∧ p ∉ growth_nonzero df ∧ capped_growth 10 1000 = 0 := by
  have hz : growthOf df p = 0 := by
    rw [growthOf]
    unfold capped_growth
    rw [if_pos h]
  refine ⟨hz, ?_, by norm_num [capped_growth]⟩
  intro hmem
  rw [growth_nonzero, List.mem_filter] at hmem
  simp [hz] at hmem

/-- Witness for C1 at a concrete view: CheckSuit starts at 10 there. -/
theorem growth_suppressed_below_twenty_witness :
    growthOf dfLow "CheckSuit" = 0 ∧ "CheckSuit" ∉ growth_nonzero dfLow ∧
      capped_growth 10 1000 = 0 :=
  growth_suppressed_below_twenty dfLow "CheckSuit" (by decide)

/-- C2 counterexample: with Start 0 and End 5 the code computes
Growth% 0, not the 100 the claim states, because the `start < 20`
suppression fires before the `start == 0` test can. -/
theorem start_zero_end_five_growth_zero :
    capped_growth 0 5 = 0 ∧ capped_growth 0 5 ≠ 100 := by
  norm_num [capped_growth]

/-- C2 amended: for Start 0 the computed Growth% is 0 regardless of End,
because `start < 20` fires first and makes the `start == 0` branch
unreachable. -/
theorem start_zero_growth_always_zero : ∀ e : Int, capped_growth 0 e = 0 := by
  intro e
  unfold capped_growth
  norm_num

/-- C3: for Start at least 20 the Growth% is the percentage change
clamped to the closed interval from -1000 to 1000; in particular
Start 100, End 20000 yields 1000 and Start 10000, End 0 yields -100. -/
theorem growth_clamped_when_start_ge_twenty (s e : Int) (h : 20 ≤ s) :
    capped_growth s e
        = min 1000 (max (-1000) ((((e : ℚ) - (s : ℚ)) / (s : ℚ)) * 100))
    ∧ capped_growth 100 20000 = 1000 ∧ capped_growth 10000 0 = -100 := by
  refine ⟨?_, by norm_num [capped_growth], by norm_num [capped_growth]⟩
  have h1 : ¬ (s < 20) := by omega
  have h2 : ¬ (s = 0) := by omega
  unfold capped_growth
  rw [if_neg h1, if_neg h2]
  set c : ℚ := (((e : ℚ) - (s : ℚ)) / (s : ℚ)) * 100 with hc
  by_cases hgt : c > 1000
  · rw [if_pos hgt, max_eq_right (by linarith : (-1000 : ℚ) ≤ c),
      min_eq_left (le_of_lt hgt)]
  · rw [if_neg hgt]
    by_cases hlt : c < -1000
    · rw [if_pos hlt, max_eq_left (le_of_lt hlt),
        min_eq_right (by norm_num : (-1000 : ℚ) ≤ 1000)]
    · rw [if_neg hlt, max_eq_right (not_lt.mp hlt), min_eq_right (not_lt.mp hgt)]

/-- Witness for C3 at the two concrete inputs named by the claim. -/
theorem growth_clamped_when_start_ge_twenty_witness :
    capped_growth 100 20000 = 1000 ∧ capped_growth 10000 0 = -100 :=
  ⟨(growth_clamped_when_start_ge_twenty 100 20000 (by norm_num)).2.1,
   (growth_clamped_when_start_ge_twenty 10000 0 (by norm_num)).2.2⟩

/-- C4: a record is in the filter engine's output exactly when it is in
the dataset and satisfies all four constraints (set membership for
product, category and location, inclusive date interval); the output is
moreover a subsequence of the dataset. -/
theorem filter_engine_sound_complete (df : List Record)
    (products categories locations : List String) (lo hi : Int) :
    (∀ r : Record, r ∈ df_filtered df products categories locations lo hi ↔
      r ∈ df ∧ r.product ∈ products ∧ r.category ∈ categories ∧
        r.location ∈ locations ∧ lo ≤ r.date ∧ r.date ≤ hi)
    ∧ (df_filtered df products categories locations lo hi).Sublist df := by
  constructor
  · intro r
    simp [df_filtered, List.mem_filter, and_assoc]
  · exact List.filter_sublist _

/-- C5: a file whose location tag is an alias-map key yields exactly one
record set per member city, each an exact duplicate of the file's rows
apart from the Location field; a tag outside the map yields a single set
with the tag verbatim. -/
theorem normalizer_location_expansion (f : RawFile) (product tag : String)
    (rows : List (Int × Int))
    (hn : parseName f.fname = some (product, tag))
    (hr : parseRows f.rows = some rows) :
    (∀ cities, city_aliases.lookup tag = some cities →
      normalizeFile f = some (cities.map (fun city => recordsOf rows product city)))
    ∧ (city_aliases.lookup tag = none →
      normalizeFile f = some [recordsOf rows product tag])
    ∧ ∀ loc, (recordsOf rows product loc).map (fun r => (r.date, r.mentions)) = rows
        ∧ ∀ r ∈ recordsOf rows product loc,
            r.location = loc ∧ r.product = product ∧ r.category = categoryOf product := by
  refine ⟨?_, ?_, ?_⟩
  · intro cities hc
    simp [normalizeFile, hr, hn, hc]
  · intro hc
    simp [normalizeFile, hr, hn, hc]
  · intro loc
    constructor
    · rw [recordsOf, List.map_map]
      exact List.map_id' rows
    · intro r hrm
      rw [recordsOf, List.mem_map] at hrm
      obtain ⟨dm, _, rfl⟩ := hrm
      exact ⟨rfl, rfl, rfl⟩

/-- Witness for C5: a UK-tagged file is duplicated for London and
Birmingham, with categories resolved from the product map. -/
theorem normalizer_location_expansion_witness :
    normalizeFile ⟨"CheckSuit_UK.csv", [("2024-01-07", 120)]⟩ =
      some [[⟨20240107, 120, "CheckSuit", "Suits", "London"⟩],
            [⟨20240107, 120, "CheckSuit", "Suits", "Birmingham"⟩]] := by
  have h := (normalizer_location_expansion
      ⟨"CheckSuit_UK.csv", [("2024-01-07", 120)]⟩
      "CheckSuit" "UK" [(20240107, 120)] (by decide) (by decide)).1
      ["London", "Birmingham"] (by decide)
  rw [h]
  decide

/-- C6: a file the per-file parse rejects is skipped and contributes
nothing, while every other file's records are unchanged: the load over a
list with one bad file equals the loads of the two good halves
concatenated. -/
theorem loader_skips_bad_file (fs1 fs2 : List RawFile) (f : RawFile)
    (h : normalizeFile f = none) :
    load_all_data (fs1 ++ f :: fs2) = load_all_data fs1 ++ load_all_data fs2
    ∧ load_all_data (fs1 ++ f :: fs2) = load_all_data (fs1 ++ fs2) := by
  have hf : fileRecords f = [] := by rw [fileRecords, h]
  have key : ∀ gs : List RawFile,
      (List.filter (fun g => pyEndsWith g.fname ".csv") (f :: gs)).flatMap fileRecords
        = (List.filter (fun g => pyEndsWith g.fname ".csv") gs).flatMap fileRecords := by
    intro gs
    rw [List.filter_cons]
    by_cases hcsv : pyEndsWith f.fname ".csv" = true
    · simp [hcsv, hf]
    · simp [hcsv]
  have h1 : load_all_data (fs1 ++ f :: fs2)
      = load_all_data fs1 ++ load_all_data fs2 := by
    unfold load_all_data
    rw [List.filter_append, List.flatMap_append, key fs2]
  have h2 : load_all_data (fs1 ++ fs2)
      = load_all_data fs1 ++ load_all_data fs2 := by
    unfold load_all_data
    rw [List.filter_append, List.flatMap_append]
  exact ⟨h1, h1.trans h2.symm⟩

/-- Witness for C6: a file with an unparseable date cell sandwiched
between two good files drops out without disturbing them. -/
theorem loader_skips_bad_file_witness :
    load_all_data [⟨"CheckSuit_UK.csv", [("2024-01-07", 10)]⟩,
        ⟨"Broken_UK.csv", [("not a date", 1)]⟩,
        ⟨"TrenchCoat_France.csv", [("2024-01-07", 7)]⟩]
      = load_all_data [⟨"CheckSuit_UK.csv", [("2024-01-07", 10)]⟩]
        ++ load_all_data [⟨"TrenchCoat_France.csv", [("2024-01-07", 7)]⟩] :=
  (loader_skips_bad_file [⟨"CheckSuit_UK.csv", [("2024-01-07", 10)]⟩]
    [⟨"TrenchCoat_France.csv", [("2024-01-07", 7)]⟩]
    ⟨"Broken_UK.csv", [("not a date", 1)]⟩ (by decide)).1

/-- C7 counterexample: a city present in the view with zero total
mentions gets a NaN share cell (the 0/0 of the row division), not the
all-zero row the claim states. -/
theorem zero_total_city_row_is_nan :
    cityRowSum [(⟨20240107, 0, "CheckSuit", "Suits", "London"⟩ : Record)] "London" = 0
    ∧ "Suits" ∈ categoriesOf [(⟨20240107, 0, "CheckSuit", "Suits", "London"⟩ : Record)]
    ∧ cat_city_pct [(⟨20240107, 0, "CheckSuit", "Suits", "London"⟩ : Record)]
        "London" "Suits" = PctCell.nan
    ∧ cat_city_pct [(⟨20240107, 0, "CheckSuit", "Suits", "London"⟩ : Record)]
        "London" "Suits" ≠ PctCell.val 0 := by
  refine ⟨by decide, by decide, by decide, ?_⟩
  have h : cat_city_pct [(⟨20240107, 0, "CheckSuit", "Suits", "London"⟩ : Record)]
      "London" "Suits" = PctCell.nan := by decide
  rw [h]
  intro hc
  cases hc

/-- C7 amended: a city with nonzero total mentions has a share row of
finite percentages summing to exactly 100; a city with zero total has no
finite cell at all — each cell with a zero numerator is NaN (and a
nonzero numerator would give a signed infinity), so the row is non-
numeric rather than all-zero, and no exception is raised. -/
theorem city_share_row_sum (df : List Record) (c : String) :
    (cityRowSum df c ≠ 0 →
      (∀ k ∈ categoriesOf df,
        cat_city_pct df c k
          = PctCell.val (((cityCatTotal df c k : ℚ) / (cityRowSum df c : ℚ)) * 100))
      ∧ ((categoriesOf df).map
          (fun k => ((cityCatTotal df c k : ℚ) / (cityRowSum df c : ℚ)) * 100)).sum
            = 100)
    ∧ (cityRowSum df c = 0 →
      ∀ k ∈ categoriesOf df,
        (∀ q : ℚ, cat_city_pct df c k ≠ PctCell.val q)
        ∧ (cityCatTotal df c k = 0 → cat_city_pct df c k = PctCell.nan)) := by
  constructor
  · intro h
    constructor
    · intro k _
      rw [cat_city_pct, divCell, if_neg h]
    · have hmm : (categoriesOf df).map
          (fun k => ((cityCatTotal df c k : ℚ) / (cityRowSum df c : ℚ)) * 100)
            = (((categoriesOf df).map (fun k => cityCatTotal df c k)).map
                (Int.cast : Int → ℚ)).map
                  (fun x => x / (cityRowSum df c : ℚ) * 100) := by
        rw [List.map_map, List.map_map]
        rfl
      rw [hmm, sum_map_div_mul, sum_map_intCast]
      have hrw : ((categoriesOf df).map (fun k => cityCatTotal df c k)).sum
          = cityRowSum df c := rfl
      rw [hrw, div_self (by exact_mod_cast h), one_mul]
  · intro h k _
    constructor
    · intro q
      rw [cat_city_pct, divCell, if_pos h]
      split_ifs <;> intro hc <;> cases hc
    · intro hz
      rw [cat_city_pct, divCell, if_pos h, if_pos hz]

/-- Witness for C7 at a concrete view in which London has 40 total
mentions split 30/10 over two categories. -/
theorem city_share_row_sum_witness :
    cityRowSum [(⟨20240107, 30, "CheckSuit", "Suits", "London"⟩ : Record),
        ⟨20240107, 10, "TrenchCoat", "Coats", "London"⟩] "London" ≠ 0
    ∧ ((categoriesOf [(⟨20240107, 30, "CheckSuit", "Suits", "London"⟩ : Record),
          ⟨20240107, 10, "TrenchCoat", "Coats", "London"⟩]).map
        (fun k => ((cityCatTotal [(⟨20240107, 30, "CheckSuit", "Suits", "London"⟩ : Record),
            ⟨20240107, 10, "TrenchCoat", "Coats", "London"⟩] "London" k : ℚ)
          / (cityRowSum [(⟨20240107, 30, "CheckSuit", "Suits", "London"⟩ : Record),
              ⟨20240107, 10, "TrenchCoat", "Coats", "London"⟩] "London" : ℚ)) * 100)).sum
      = 100 :=
  ⟨by decide,
   ((city_share_row_sum [(⟨20240107, 30, "CheckSuit", "Suits", "London"⟩ : Record),
      ⟨20240107, 10, "TrenchCoat", "Coats", "London"⟩] "London").1 (by decide)).2⟩

/-- C8: the reported top products are the argmax and argmin of Growth%
over the products with non-zero Growth%; when every product in the
growth table has zero Growth%, both are reported as unavailable, and
when some product has non-zero Growth%, both reports exist. -/
theorem top_product_argmax_argmin (df : List Record) :
    ((∀ p ∈ growthIndex df, growthOf df p = 0) →
      top_growing df = none ∧ top_declining df = none)
    ∧ (∀ p, top_growing df = some p →
        p ∈ growth_nonzero df ∧ growthOf df p ≠ 0 ∧
          ∀ q ∈ growth_nonzero df, growthOf df q ≤ growthOf df p)
    ∧ (∀ p, top_declining df = some p →
        p ∈ growth_nonzero df ∧ growthOf df p ≠ 0 ∧
          ∀ q ∈ growth_nonzero df, growthOf df p ≤ growthOf df q)
    ∧ (growth_nonzero df ≠ [] →
        (top_growing df).isSome ∧ (top_declining df).isSome) := by
  refine ⟨?_, ?_, ?_, ?_⟩
  · intro hall
    have hempty : growth_nonzero df = [] := by
      rw [growth_nonzero, List.filter_eq_nil_iff]
      intro p hp
      simp [hall p hp]
    rw [top_growing, top_declining, hempty]
    exact ⟨rfl, rfl⟩
  · intro p hp
    obtain ⟨hmem, hall⟩ := idxmaxBy_spec (growthOf df) (growth_nonzero df) p hp
    have hnz : growthOf df p ≠ 0 := by
      have := (List.mem_filter.mp hmem).2
      simpa using this
    exact ⟨hmem, hnz, hall⟩
  · intro p hp
    obtain ⟨hmem, hall⟩ := idxminBy_spec (growthOf df) (growth_nonzero df) p hp
    have hnz : growthOf df p ≠ 0 := by
      have := (List.mem_filter.mp hmem).2
      simpa using this
    exact ⟨hmem, hnz, hall⟩
  · intro hne
    constructor
    · rw [top_growing, ← Option.ne_none_iff_isSome]
      intro hnone
      exact hne ((idxmaxBy_eq_none _ _).mp hnone)
    · rw [top_declining, ← Option.ne_none_iff_isSome]
      intro hnone
      exact hne ((idxminBy_eq_none _ _).mp hnone)

/-- Witness for C8: on the tie dataset B is reported on top, sits in the
non-zero table, and bounds every non-zero growth value. -/
theorem top_product_argmax_argmin_witness :
    "B" ∈ growth_nonzero dfTie ∧ growthOf dfTie "B" ≠ 0 ∧
      (growth_nonzero dfTie).all
        (fun q => decide (growthOf dfTie q ≤ growthOf dfTie "B")) = true := by
  have hB : growthOf dfTie "B" = 100 := by
    have h1 : startOf dfTie "B" = 20 := by decide
    have h2 : endOf dfTie "B" = 40 := by decide
    rw [growthOf, h1, h2]
    norm_num [capped_growth]
  have hC : growthOf dfTie "C" = 100 := by
    have h1 : startOf dfTie "C" = 20 := by decide
    have h2 : endOf dfTie "C" = 40 := by decide
    rw [growthOf, h1, h2]
    norm_num [capped_growth]
  have hidx : growthIndex dfTie = ["B", "C"] := by decide
  have hgnz : growth_nonzero dfTie = ["B", "C"] := by
    rw [growth_nonzero, hidx]
    simp [List.filter, hB, hC]
  have htop : top_growing dfTie = some "B" := by
    rw [top_growing, hgnz]
    simp [idxmaxBy, hB, hC]
  have h := (top_product_argmax_argmin dfTie).2.1 "B" htop
  refine ⟨h.1, h.2.1, ?_⟩
  rw [List.all_eq_true]
  intro q hq
  simpa using h.2.2 q hq

/-- C9 counterexample: a file whose count cell is the integer -5 is
accepted (not skipped), and the loaded dataset then contains records
with negative Mentions, contradicting the non-negativity claim. -/
theorem loader_accepts_negative_count :
    normalizeFile ⟨"CheckSuit_UK.csv", [("2024-01-07", -5)]⟩ ≠ none
    ∧ (load_all_data [⟨"CheckSuit_UK.csv", [("2024-01-07", -5)]⟩]).all
        (fun r => decide (0 ≤ r.mentions)) = false := by
  constructor
  · intro h
    cases h
  · decide

/-- C9 amended: the loader copies count cells into Mentions without any
validation, so Mentions values are non-negative exactly when the input
files' counts are: if every count cell of every file is non-negative,
every loaded record has non-negative Mentions. -/
theorem mentions_nonneg_of_inputs_nonneg (files : List RawFile)
    (h : ∀ f ∈ files, ∀ sm ∈ f.rows, 0 ≤ sm.2) :
    ∀ r ∈ load_all_data files, 0 ≤ r.mentions := by
  intro r hr
  rw [load_all_data, List.mem_flatMap] at hr
  obtain ⟨f, hf, hrf⟩ := hr
  have hfin : f ∈ files := (List.mem_filter.mp hf).1
  unfold fileRecords at hrf
  split at hrf
  next sets hnf =>
    obtain ⟨sm, hsm, hval⟩ := normalizeFile_mentions f sets hnf r hrf
    rw [hval]
    exact h f hfin sm hsm
  next => simp at hrf

/-- Witness for C9 amended at a one-file input with a non-negative count. -/
theorem mentions_nonneg_of_inputs_nonneg_witness :
    (load_all_data [⟨"CheckSuit_UK.csv", [("2024-01-07", 10)]⟩]).all
      (fun r => decide (0 ≤ r.mentions)) = true := by
  rw [List.all_eq_true]
  intro r hr
  simpa using mentions_nonneg_of_inputs_nonneg
    [⟨"CheckSuit_UK.csv", [("2024-01-07", 10)]⟩] (by decide) r hr

/-- C10: when several products tie for the maximal (resp. minimal)
non-zero Growth%, the reported one is lexicographically first among the
tied (the growth table is indexed in sorted product order and idxmax and
idxmin return the first extremal entry); likewise for a tie in total
mentions between locations. -/
theorem tie_break_lexicographic_first (df : List Record) (p q : String) :
    (top_growing df = some p → q ∈ growth_nonzero df →
      growthOf df q = growthOf df p → pyStrLe p q = true)
    ∧ (top_declining df = some p → q ∈ growth_nonzero df →
      growthOf df q = growthOf df p → pyStrLe p q = true)
    ∧ (top_location df = some p → q ∈ locationsOf df →
      locTotal df q = locTotal df p → pyStrLe p q = true) := by
  have hsortg : (growth_nonzero df).Pairwise pyLe :=
    List.Pairwise.filter _ (sortStrs_pairwise _)
  have hsortl : (locationsOf df).Pairwise pyLe := sortStrs_pairwise _
  refine ⟨?_, ?_, ?_⟩
  · intro hp hq heq
    exact first_max_le_ties hsortg hp hq heq
  · intro hp hq heq
    exact first_min_le_ties hsortg hp hq heq
  · intro hp hq heq
    exact first_max_le_ties hsortl hp hq heq

/-- Witness for C10: B and C tie at 100 percent growth and B is
reported; London and Paris tie at 60 mentions and London is reported. -/
theorem tie_break_lexicographic_first_witness :
    pyStrLe "B" "C" = true ∧ pyStrLe "London" "Paris" = true := by
  have hB : growthOf dfTie "B" = 100 := by
    have h1 : startOf dfTie "B" = 20 := by decide
    have h2 : endOf dfTie "B" = 40 := by decide
    rw [growthOf, h1, h2]
    norm_num [capped_growth]
  have hC : growthOf dfTie "C" = 100 := by
    have h1 : startOf dfTie "C" = 20 := by decide
    have h2 : endOf dfTie "C" = 40 := by decide
    rw [growthOf, h1, h2]
    norm_num [capped_growth]
  have hidx : growthIndex dfTie = ["B", "C"] := by decide
  have hgnz : growth_nonzero dfTie = ["B", "C"] := by
    rw [growth_nonzero, hidx]
    simp [List.filter, hB, hC]
  have htop : top_growing dfTie = some "B" := by
    rw [top_growing, hgnz]
    simp [idxmaxBy, hB, hC]
  have hCmem : "C" ∈ growth_nonzero dfTie := by rw [hgnz]; simp
  have heq : growthOf dfTie "C" = growthOf dfTie "B" := by rw [hB, hC]
  have hloc : top_location dfTie = some "London" := by decide
  have hPmem : "Paris" ∈ locationsOf dfTie := by decide
  have hlp : locTotal dfTie "Paris" = locTotal dfTie "London" := by decide
  exact ⟨(tie_break_lexicographic_first dfTie "B" "C").1 htop hCmem heq,
    (tie_break_lexicographic_first dfTie "London" "Paris").2.2 hloc hPmem hlp⟩
